import Mathlib

/-!
Verification development for the business-card-reader processing pipeline.

The Go source is shallowly embedded: service methods become Lean functions,
the DynamoDB record store becomes a key-indexed map `RecordStore`, and the
fallible backends (S3 uploads/downloads, DynamoDB puts, the Gemini extractor)
are modelled by an `Env` of per-call outcome schedules, one entry per call the
service code makes during a single invocation.  Timestamps (`time.Now()`) are
modelled by a stream `Env.time` indexed by the order in which the service
method samples the clock.

Embedded functions (keeping the Go names):
  * `BusinessCardService.ProcessBusinessCard`  -> `processBusinessCard`
  * `BusinessCardService.RetryFailedProcessing` -> `retryFailedProcessing`
  * `DynamoService.SaveBusinessCard`           -> `saveBusinessCard`
  * `DynamoService.GetBusinessCard`            -> `getBusinessCard`
  * `DynamoService.GetAllBusinessCards`        -> `getAllBusinessCards`
  * `DynamoService.GetBusinessCardsByStatus`   -> `getBusinessCardsByStatus`
  * `GeminiService.extractJSONFromResponse`    -> `extractJSONFromResponse`
-/

namespace BCR

/-- `models.PersonalData`: all fields are Go strings (zero value `""`). -/
structure PersonalData where
  fullName : String
  firstName : String
  lastName : String
  jobTitle : String
  department : String
  email : String
  phone : String
  mobile : String
  linkedin : String
  website : String
deriving DecidableEq, Repr, Inhabited

/-- `models.Address`. -/
structure Address where
  street : String
  city : String
  state : String
  postalCode : String
  country : String
  full : String
deriving DecidableEq, Repr, Inhabited

/-- The anonymous `social_media` struct embedded in `models.CompanyData`. -/
structure SocialMedia where
  linkedin : String
  twitter : String
  facebook : String
  instagram : String
deriving DecidableEq, Repr, Inhabited

/-- `models.CompanyData`. -/
structure CompanyData where
  name : String
  industry : String
  website : String
  email : String
  phone : String
  address : Address
  socialMedia : SocialMedia
deriving DecidableEq, Repr, Inhabited

/-- `models.ImageData`.  Byte slices become `List Nat`; `time.Time` becomes a
`Nat` timestamp (the Go zero time is modelled by `0`). -/
structure ImageData where
  fileName : String
  contentType : String
  size : Int
  s3Key : String
  s3URL : String
  data : List Nat
  uploadedAt : Nat
deriving DecidableEq, Repr, Inhabited

/-- `models.BusinessCard`.  `LastRetryAt *time.Time` (a nullable pointer)
becomes `Option Nat`; `RetryCount int` becomes `Int`. -/
structure BusinessCard where
  id : String
  personalData : PersonalData
  companyData : CompanyData
  images : List ImageData
  extractedText : String
  observ : String
  user : String
  processedAt : Nat
  createdAt : Nat
  status : String
  error : String
  retryCount : Int
  lastRetryAt : Option Nat
deriving DecidableEq, Repr, Inhabited

/-- `models.ImageUpload`: one raw upload from the client. -/
structure ImageUpload where
  fileName : String
  contentType : String
  data : List Nat
deriving DecidableEq, Repr, Inhabited

/-- `models.StatusPending`. -/
def StatusPending : String := "PENDING"
/-- `models.StatusProcessing`. -/
def StatusProcessing : String := "PROCESSING"
/-- `models.StatusCompleted`. -/
def StatusCompleted : String := "COMPLETED"
/-- `models.StatusFailed`. -/
def StatusFailed : String := "FAILED"
/-- `models.StatusRetrying`. -/
def StatusRetrying : String := "RETRYING"

/-- The DynamoDB table, keyed by business card id. -/
def RecordStore : Type := String → Option BusinessCard

/-- Outcome schedules for one service-method invocation.  Each backend call
the Go code makes is answered from here: `uploadResult i` answers the S3
upload performed for the `i`-th image of the batch, `saveResult n` answers
the `n`-th `SaveBusinessCard` call of the invocation (`none` = success),
`getImageResult i` answers the S3 download for the `i`-th stored image on the
retry path, `getRecordOutcome` is a transport failure for the DynamoDB
`GetItem` (`none` = the call reaches the table), `extractResult` is the
Gemini extractor (returning, as in the Go code, a `*models.BusinessCard`
carrying the extracted fields), and `time n` is the value of the `n`-th
`time.Now()` sampled by the service method. -/
structure Env where
  uploadResult : Nat → Except String String
  saveResult : Nat → Option String
  getImageResult : Nat → Except String (List Nat)
  getRecordOutcome : Option String
  extractResult : List ImageData → Except String BusinessCard
  time : Nat → Nat

/-- A Go `(card *models.BusinessCard, err error)` return value. -/
structure GoResult where
  card : Option BusinessCard
  err : Option String
deriving DecidableEq, Repr

/-- `DynamoService.SaveBusinessCard`: a `PutItem` that either fails (store
unchanged) or overwrites the item keyed by `card.id`. -/
def saveBusinessCard (outcome : Option String) (store : RecordStore)
    (card : BusinessCard) : Except String RecordStore :=
  match outcome with
  | some e => .error ("failed to save business card: " ++ e)
  | none => .ok (fun j => if j = card.id then some card else store j)

/-- `DynamoService.GetBusinessCard`: transport failure, missing item, or the
stored record.  (Unmarshal of an item this system wrote always succeeds, so
the typed store returns the record directly.) -/
def getBusinessCard (outcome : Option String) (store : RecordStore)
    (id : String) : Except String BusinessCard :=
  match outcome with
  | some e => .error ("failed to get business card: " ++ e)
  | none =>
    match store id with
    | none => .error "business card not found"
    | some card => .ok card

/-- The upload loop of `ProcessBusinessCard` (src/unnamed/part_002 lines
37-69): for each image, `s3Service.UploadImage` yields an S3 key or aborts
the whole submission; on success the `models.ImageData` entry is built with
`Size = len(data)` and `UploadedAt = time.Now()` (the `i`-th clock sample). -/
def uploadImages (env : Env) (uploads : List ImageUpload) (i : Nat) :
    Except String (List ImageData) :=
  match uploads with
  | [] => .ok []
  | u :: rest =>
    match env.uploadResult i with
    | .error e => .error ("failed to upload image to S3: " ++ e)
    | .ok s3Key =>
      match uploadImages env rest (i + 1) with
      | .error e => .error e
      | .ok imgs =>
        .ok ({ fileName := u.fileName, contentType := u.contentType,
               size := (u.data.length : Int), s3Key := s3Key, s3URL := "",
               data := u.data, uploadedAt := env.time i } :: imgs)

/-- The download loop of `RetryFailedProcessing` (src/unnamed/part_002 lines
229-250): each stored image is fetched back from S3 by its key; a failure
aborts the retry; on success a fresh `models.ImageData` is built reusing the
stored metadata with the downloaded bytes. -/
def downloadImages (env : Env) (imgs : List ImageData) (i : Nat) :
    Except String (List ImageData) :=
  match imgs with
  | [] => .ok []
  | img :: rest =>
    match env.getImageResult i with
    | .error e =>
      .error ("failed to download image from S3 for retry processing: " ++ e)
    | .ok bytes =>
      match downloadImages env rest (i + 1) with
      | .error e => .error e
      | .ok out =>
        .ok ({ fileName := img.fileName, contentType := img.contentType,
               size := img.size, s3Key := img.s3Key, s3URL := "",
               data := bytes, uploadedAt := img.uploadedAt } :: out)

/-- `BusinessCardService.ProcessBusinessCard` (src/unnamed/part_002 lines
29-177).  The generated `uuid.New().String()` is the parameter
`businessCardID`.  Clock samples, in the order the Go code takes them: one
per uploaded image (inside the upload loop), then `CreatedAt`, then either
the failure-path `LastRetryAt` or the success-path `ProcessedAt`. -/
def processBusinessCard (env : Env) (store : RecordStore)
    (businessCardID : String) (images : List ImageUpload) :
    GoResult × RecordStore :=
  match uploadImages env images 0 with
  | .error e => (⟨none, some e⟩, store)
  | .ok imageData =>
    let n := images.length
    let businessCard : BusinessCard :=
      { id := businessCardID, personalData := default, companyData := default,
        images := imageData, extractedText := "", observ := "", user := "",
        processedAt := 0, createdAt := env.time n, status := StatusPending,
        error := "", retryCount := 0, lastRetryAt := none }
    match saveBusinessCard (env.saveResult 0) store businessCard with
    | .error e => (⟨none, some ("failed to save initial business card: " ++ e)⟩, store)
    | .ok store1 =>
      let card1 := { businessCard with status := StatusProcessing }
      match saveBusinessCard (env.saveResult 1) store1 card1 with
      | .error e => (⟨none, some ("failed to update business card status: " ++ e)⟩, store1)
      | .ok store2 =>
        match env.extractResult imageData with
        | .error e =>
          let card2 := { card1 with
            status := StatusFailed, error := e,
            retryCount := 1, lastRetryAt := some (env.time (n + 1)) }
          match saveBusinessCard (env.saveResult 2) store2 card2 with
          | .error se => (⟨none, some ("failed to save error state: " ++ se)⟩, store2)
          | .ok store3 =>
            (⟨some card2, some ("failed to process business card: " ++ e)⟩, store3)
        | .ok processed =>
          let card2 := { card1 with
            personalData := processed.personalData,
            companyData := processed.companyData,
            extractedText := processed.extractedText,
            processedAt := env.time (n + 1),
            status := StatusCompleted }
          match saveBusinessCard (env.saveResult 2) store2 card2 with
          | .error e => (⟨none, some ("failed to save processed business card: " ++ e)⟩, store2)
          | .ok store3 => (⟨some card2, none⟩, store3)

/-- `BusinessCardService.RetryFailedProcessing` (src/unnamed/part_002 lines
179-315).  Clock samples: `LastRetryAt` first, `ProcessedAt` (success path)
second. -/
def retryFailedProcessing (env : Env) (store : RecordStore) (id : String) :
    GoResult × RecordStore :=
  match getBusinessCard env.getRecordOutcome store id with
  | .error e => (⟨none, some ("failed to get business card: " ++ e)⟩, store)
  | .ok businessCard =>
    if businessCard.status ≠ StatusFailed then
      (⟨none, some "business card is not in failed state"⟩, store)
    else
      let card1 := { businessCard with
        status := StatusRetrying,
        retryCount := businessCard.retryCount + 1,
        lastRetryAt := some (env.time 0) }
      match saveBusinessCard (env.saveResult 0) store card1 with
      | .error e => (⟨none, some ("failed to update retry state: " ++ e)⟩, store)
      | .ok store1 =>
        match downloadImages env card1.images 0 with
        | .error e => (⟨none, some e⟩, store1)
        | .ok geminiImages =>
          match env.extractResult geminiImages with
          | .error e =>
            let card2 := { card1 with status := StatusFailed, error := e }
            match saveBusinessCard (env.saveResult 1) store1 card2 with
            | .error se => (⟨none, some ("failed to save error state: " ++ se)⟩, store1)
            | .ok store2 =>
              (⟨some card2, some ("failed to process business card on retry: " ++ e)⟩, store2)
          | .ok processed =>
            let card2 := { card1 with
              personalData := processed.personalData,
              companyData := processed.companyData,
              extractedText := processed.extractedText,
              processedAt := env.time 1,
              status := StatusCompleted, error := "" }
            match saveBusinessCard (env.saveResult 1) store1 card2 with
            | .error se => (⟨none, some ("failed to save processed business card: " ++ se)⟩, store1)
            | .ok store2 => (⟨some card2, none⟩, store2)

/-- One stored DynamoDB item as a scan returns it: `statusAttr` is the item's
raw `status` attribute (used by the server-side `FilterExpression`), and
`decode` is the result of `dynamodbattribute.UnmarshalMap` on the item
(`none` for an item that fails to unmarshal into `models.BusinessCard`). -/
structure RawItem where
  statusAttr : Option String
  decode : Option BusinessCard

/-- The unmarshal loop shared by `GetAllBusinessCards` and
`GetBusinessCardsByStatus` (dynamo_service.go lines 153-164 and 253-264):
items that fail to unmarshal are skipped with a warning. -/
def unmarshalItems (items : List RawItem) : List BusinessCard :=
  items.filterMap (·.decode)

/-- `DynamoService.GetAllBusinessCards`: a full table scan; the scan itself
may fail, otherwise every well-formed item is returned. -/
def getAllBusinessCards (scanOutcome : Option String) (items : List RawItem) :
    Except String (List BusinessCard) :=
  match scanOutcome with
  | some e => .error ("failed to scan business cards: " ++ e)
  | none => .ok (unmarshalItems items)

/-- The DynamoDB server-side `FilterExpression` `#status = :status` of
`GetBusinessCardsByStatus`: the scan returns only items whose raw `status`
attribute equals the requested value. -/
def scanByStatus (status : String) (items : List RawItem) : List RawItem :=
  items.filter (fun it => it.statusAttr = some status)

/-- `DynamoService.GetBusinessCardsByStatus`: a filtered scan followed by the
same skip-on-unmarshal-failure loop. -/
def getBusinessCardsByStatus (scanOutcome : Option String)
    (items : List RawItem) (status : String) :
    Except String (List BusinessCard) :=
  match scanOutcome with
  | some e => .error ("failed to scan business cards by status: " ++ e)
  | none => .ok (unmarshalItems (scanByStatus status items))

/-- A sequence of `RetryFailedProcessing` calls on the same id, each with its
own backend outcome schedule, threading the record store. -/
def runRetries (envs : List Env) (store : RecordStore) (id : String) :
    RecordStore :=
  match envs with
  | [] => store
  | env :: rest => runRetries rest (retryFailedProcessing env store id).2 id

/-- `Except.isOk` as used in this development. -/
def exceptOk {ε α : Type} : Except ε α → Bool
  | .ok _ => true
  | .error _ => false

/-!  `GeminiService.extractJSONFromResponse` (gemini_service.go lines
231-257).  The Go loop `for i, char := range response` visits the runes of
the string, and `response[start:end]` slices at the byte offsets of those
runes; since `start` points at a `'{'` rune and `end` one past a (1-byte)
`'}'` rune, both offsets lie on rune boundaries, so on the `List Char` view
the function takes the corresponding rune subsequence. -/

/-- The scanning loop: `i` is the index of the next character, `start` is the
index of the first `'{'` seen so far (Go `start == -1` is `none`), and
`braceCount` is the running count.  Returns `some (start, end)` when the loop
breaks (`braceCount` back to `0` at a `'}'` with `start` set), `none` when
the loop runs off the end. -/
def scanBraces : List Char → Nat → Option Nat → Int → Option (Nat × Nat)
  | [], _, _, _ => none
  | c :: rest, i, start, braceCount =>
    if c = '{' then
      scanBraces rest (i + 1) (if start.isNone then some i else start) (braceCount + 1)
    else if c = '}' then
      match start with
      | some s =>
        if braceCount - 1 = 0 then some (s, i + 1)
        else scanBraces rest (i + 1) (some s) (braceCount - 1)
      | none => scanBraces rest (i + 1) none (braceCount - 1)
    else scanBraces rest (i + 1) start braceCount

/-- `GeminiService.extractJSONFromResponse`: slice out `response[start:end]`
when the scan found a balanced segment, else return the input unchanged. -/
def extractJSONFromResponse (response : List Char) : List Char :=
  match scanBraces response 0 none 0 with
  | some (s, e) => (response.take e).drop s
  | none => response

/-- The contribution of one character to the running brace count. -/
def braceVal (c : Char) : Int :=
  if c = '{' then 1 else if c = '}' then -1 else 0

/-- The running brace count of a whole segment: `+1` per `'{'`, `-1` per
`'}'`. -/
def braceDelta (cs : List Char) : Int :=
  (cs.map braceVal).sum

/-- Position `e` closes the leading balanced segment: the character there is
`'}'` and the running brace count of the prefix through `e` is zero. -/
def balancedEndAt (response : List Char) (e : Nat) : Bool :=
  decide (response.get? e = some '}') && decide (braceDelta (response.take (e + 1)) = 0)

/-- The first position at which the running brace count returns to zero on a
`'}'`. -/
def firstBalancedEnd (response : List Char) : Option Nat :=
  (List.range response.length).find? (balancedEndAt response)

/-- The index of the first `'{'` of a segment. -/
def firstOpen : List Char → Option Nat
  | [] => none
  | c :: rest => if c = '{' then some 0 else (firstOpen rest).map (· + 1)

/-- The behaviour claimed for the JSON-isolation helper, written from its
description: the substring from the first `'{'` through the character where
the running brace count first returns to zero, or the input unchanged when no
such balanced segment exists. -/
def extractJSONFromResponseSpec (response : List Char) : List Char :=
  match firstOpen response, firstBalancedEnd response with
  | some s, some e => (response.take (e + 1)).drop s
  | _, _ => response

theorem braceDelta_append (p q : List Char) :
    braceDelta (p ++ q) = braceDelta p + braceDelta q := by
  simp [braceDelta, List.map_append, List.sum_append]

theorem braceDelta_cons (c : Char) (p : List Char) :
    braceDelta (c :: p) = braceVal c + braceDelta p := by
  simp [braceDelta]

theorem get?_append_cons (p l : List Char) (c : Char) :
    (p ++ c :: l).get? p.length = some c := by
  induction p with
  | nil => rfl
  | cons a p ih => simpa using ih

theorem take_append_cons (p l : List Char) (c : Char) :
    (p ++ c :: l).take (p.length + 1) = p ++ [c] := by
  induction p with
  | nil => rfl
  | cons a p ih => simpa [List.take_cons] using ih

theorem firstOpen_cons (c : Char) (l : List Char) :
    firstOpen (c :: l) = if c = '{' then some 0 else (firstOpen l).map (· + 1) :=
  rfl

theorem firstOpen_append (p l : List Char) :
    firstOpen (p ++ l) =
      match firstOpen p with
      | some s => some s
      | none => (firstOpen l).map (· + p.length) := by
  induction p with
  | nil => simp [firstOpen]
  | cons a p ih =>
    rw [List.cons_append, firstOpen_cons, firstOpen_cons]
    by_cases ha : a = '{'
    · simp [ha]
    · rw [if_neg ha, if_neg ha, ih]
      cases hp : firstOpen p with
      | some s => simp
      | none =>
        cases hl : firstOpen l with
        | some t => simp [Nat.add_assoc]
        | none => simp

theorem braceDelta_nonpos_of_firstOpen_none (p : List Char)
    (h : firstOpen p = none) : braceDelta p ≤ 0 := by
  induction p with
  | nil => simp [braceDelta]
  | cons a p ih =>
    rw [firstOpen_cons] at h
    by_cases ha : a = '{'
    · simp [ha] at h
    · rw [if_neg ha] at h
      replace h : firstOpen p = none := by
        cases hfo : firstOpen p
        · rfl
        · rw [hfo] at h; simp at h
      have hv : braceVal a ≤ 0 := by
        unfold braceVal
        rw [if_neg ha]
        split <;> omega
      have := ih h
      rw [braceDelta_cons]
      omega

theorem range_find?_eq_none_iff {p : Nat → Bool} {n : Nat} :
    (List.range n).find? p = none ↔ ∀ k, k < n → p k = false := by
  rw [List.find?_eq_none]
  constructor
  · intro h k hk
    have := h k (List.mem_range.mpr hk)
    simpa using this
  · intro h x hx
    simp [h x (List.mem_range.mp hx)]

theorem range_find?_eq_some_of {p : Nat → Bool} {n j : Nat}
    (hj : j < n) (hpj : p j = true) (hlt : ∀ k, k < j → p k = false) :
    (List.range n).find? p = some j := by
  induction n with
  | zero => omega
  | succ m ih =>
    rw [List.range_succ, List.find?_append]
    rcases Nat.lt_or_ge j m with hjm | hjm
    · rw [ih hjm, Option.or]
    · have hjeq : j = m := by omega
      subst hjeq
      have hnone : (List.range j).find? p = none :=
        range_find?_eq_none_iff.mpr (fun k hk => hlt k hk)
      rw [hnone, Option.or]
      simp [List.find?, hpj]

theorem balancedEndAt_boundary (p cs : List Char) (c : Char) :
    balancedEndAt (p ++ c :: cs) p.length =
      (decide (c = '}') && decide (braceDelta p + braceVal c = 0)) := by
  unfold balancedEndAt
  rw [get?_append_cons, take_append_cons, braceDelta_append]
  simp [braceDelta]

theorem hno_extend (p cs : List Char) (c : Char)
    (hno : ∀ k, k < p.length → balancedEndAt (p ++ c :: cs) k = false)
    (hb : balancedEndAt (p ++ c :: cs) p.length = false) :
    ∀ k, k < (p ++ [c]).length → balancedEndAt ((p ++ [c]) ++ cs) k = false := by
  intro k hk
  rw [List.append_assoc, List.singleton_append]
  rw [List.length_append, List.length_singleton] at hk
  rcases Nat.lt_or_ge k p.length with h | h
  · exact hno k h
  · have hke : k = p.length := by omega
    subst hke
    exact hb

theorem braceVal_open : braceVal '{' = 1 := rfl

theorem braceVal_close : braceVal '}' = -1 := rfl

theorem scanBraces_nil (i : Nat) (start : Option Nat) (bc : Int) :
    scanBraces [] i start bc = none := rfl

theorem scanBraces_cons (c : Char) (cs : List Char) (i : Nat)
    (start : Option Nat) (bc : Int) :
    scanBraces (c :: cs) i start bc =
      if c = '{' then
        scanBraces cs (i + 1) (if start.isNone then some i else start) (bc + 1)
      else if c = '}' then
        match start with
        | some s =>
          if bc - 1 = 0 then some (s, i + 1)
          else scanBraces cs (i + 1) (some s) (bc - 1)
        | none => scanBraces cs (i + 1) none (bc - 1)
      else scanBraces cs (i + 1) start bc := rfl

/-- The scanning loop computes the spec answer: running it on the remaining
characters `cs`, with the loop state describing the already-consumed prefix
`p` (no balanced end inside `p`), yields the first `'{'` index and one past
the first balanced-end index of the whole string. -/
theorem scanBraces_spec (cs : List Char) : ∀ p : List Char,
    (∀ k, k < p.length → balancedEndAt (p ++ cs) k = false) →
    scanBraces cs p.length (firstOpen p) (braceDelta p) =
      match firstOpen (p ++ cs), firstBalancedEnd (p ++ cs) with
      | some s, some e => some (s, e + 1)
      | _, _ => none := by
  induction cs with
  | nil =>
    intro p hno
    have hend : firstBalancedEnd (p ++ []) = none := by
      unfold firstBalancedEnd
      exact range_find?_eq_none_iff.mpr (by simpa using hno)
    rw [hend, scanBraces_nil]
    cases firstOpen (p ++ []) <;> rfl
  | cons c cs ih =>
    intro p hno
    have hassoc : p ++ c :: cs = (p ++ [c]) ++ cs := by simp
    by_cases hc : c = '{'
    · subst hc
      have hb : balancedEndAt (p ++ '{' :: cs) p.length = false := by
        rw [balancedEndAt_boundary]
        simp
      have key := ih (p ++ ['{']) (hno_extend p cs '{' hno hb)
      rw [List.length_append, List.length_singleton, braceDelta_append] at key
      have hval : braceDelta ['{'] = 1 := rfl
      rw [hval] at key
      have hfo : firstOpen (p ++ ['{']) =
          if (firstOpen p).isNone then some p.length else firstOpen p := by
        rw [firstOpen_append]
        cases firstOpen p <;> simp [firstOpen]
      rw [hfo] at key
      rw [scanBraces_cons, if_pos rfl, hassoc]
      exact key
    · by_cases hcc : c = '}'
      · subst hcc
        cases hfo : firstOpen p with
        | some s =>
          by_cases hbc : braceDelta p - 1 = 0
          · -- the loop breaks here: this position closes the balanced segment
            have hends : firstBalancedEnd (p ++ '}' :: cs) = some p.length := by
              unfold firstBalancedEnd
              apply range_find?_eq_some_of
              · simp
              · rw [balancedEndAt_boundary, braceVal_close, Bool.and_eq_true]
                constructor
                · decide
                · rw [decide_eq_true_eq]
                  omega
              · exact hno
            have hfos : firstOpen (p ++ '}' :: cs) = some s := by
              simp only [firstOpen_append, hfo]
            rw [scanBraces_cons, if_neg hc, if_pos rfl, hends, hfos]
            simp [hbc]
          · have hb : balancedEndAt (p ++ '}' :: cs) p.length = false := by
              rw [balancedEndAt_boundary, braceVal_close]
              simp only [Bool.and_eq_false_iff, decide_eq_false_iff_not]
              right
              omega
            have key := ih (p ++ ['}']) (hno_extend p cs '}' hno hb)
            rw [List.length_append, List.length_singleton, braceDelta_append] at key
            have hval : braceDelta ['}'] = -1 := rfl
            rw [hval] at key
            have hfos : firstOpen (p ++ ['}']) = some s := by
              simp only [firstOpen_append, hfo]
            rw [hfos] at key
            have harith : braceDelta p + -1 = braceDelta p - 1 := by omega
            rw [harith] at key
            rw [scanBraces_cons, if_neg hc, if_pos rfl, hassoc]
            simp only [if_neg hbc]
            exact key
        | none =>
          have hple : braceDelta p ≤ 0 := braceDelta_nonpos_of_firstOpen_none p hfo
          have hb : balancedEndAt (p ++ '}' :: cs) p.length = false := by
            rw [balancedEndAt_boundary, braceVal_close]
            simp only [Bool.and_eq_false_iff, decide_eq_false_iff_not]
            right
            omega
          have key := ih (p ++ ['}']) (hno_extend p cs '}' hno hb)
          rw [List.length_append, List.length_singleton, braceDelta_append] at key
          have hval : braceDelta ['}'] = -1 := rfl
          rw [hval] at key
          have hfon : firstOpen (p ++ ['}']) = none := by
            simp only [firstOpen_append, hfo]
            rfl
          rw [hfon] at key
          have harith : braceDelta p + -1 = braceDelta p - 1 := by omega
          rw [harith] at key
          rw [scanBraces_cons, if_neg hc, if_pos rfl, hassoc]
          exact key
      · -- an ordinary character: state unchanged apart from the index
        have hb : balancedEndAt (p ++ c :: cs) p.length = false := by
          rw [balancedEndAt_boundary]
          simp [hcc]
        have key := ih (p ++ [c]) (hno_extend p cs c hno hb)
        rw [List.length_append, List.length_singleton, braceDelta_append] at key
        have hval : braceDelta [c] = 0 := by
          simp [braceDelta, braceVal, hc, hcc]
        rw [hval, add_zero] at key
        have hfoc : firstOpen (p ++ [c]) = firstOpen p := by
          rw [firstOpen_append]
          cases firstOpen p with
          | some s => rfl
          | none => simp [firstOpen, hc]
        rw [hfoc] at key
        rw [scanBraces_cons, if_neg hc, if_neg hcc, hassoc]
        exact key

/-- C9: the extractor's JSON-isolation helper is total and returns the
substring starting at the first `'{'` and ending at the character where the
running brace count first returns to zero (inclusive); when no such balanced
segment exists (no `'{'`, or the count never returns to zero at a `'}'`),
it returns the input unchanged. -/
theorem extractJSONFromResponse_correct (response : List Char) :
    extractJSONFromResponse response = extractJSONFromResponseSpec response := by
  have h : scanBraces response 0 none 0 =
      match firstOpen response, firstBalancedEnd response with
      | some s, some e => some (s, e + 1)
      | _, _ => none := by
    have key := scanBraces_spec response [] (by intro k hk; simp at hk)
    simpa [firstOpen, braceDelta] using key
  unfold extractJSONFromResponse extractJSONFromResponseSpec
  rw [h]
  cases firstOpen response <;> cases firstBalancedEnd response <;> rfl

/-! Concrete fixtures used by witnesses and counterexamples. -/

/-- A stored image reference, as the upload loop would have produced it. -/
def sampleImage : ImageData :=
  { fileName := "card.jpg", contentType := "image/jpeg", size := 2,
    s3Key := "key0", s3URL := "", data := [9, 9], uploadedAt := 100 }

/-- A job record in the `FAILED` state. -/
def sampleFailedCard : BusinessCard :=
  { id := "job1", personalData := default, companyData := default,
    images := [sampleImage], extractedText := "", observ := "", user := "",
    processedAt := 0, createdAt := 101, status := StatusFailed,
    error := "gemini down", retryCount := 1, lastRetryAt := some 102 }

/-- A job record in the `COMPLETED` state. -/
def sampleCompletedCard : BusinessCard :=
  { sampleFailedCard with
    status := StatusCompleted, error := "", extractedText := "raw",
    personalData := { (default : PersonalData) with fullName := "Jane Doe" } }

def emptyStore : RecordStore := fun _ => none

def storeFailed : RecordStore :=
  fun j => if j = "job1" then some sampleFailedCard else none

def storeCompleted : RecordStore :=
  fun j => if j = "job1" then some sampleCompletedCard else none

/-- What a successful Gemini extraction returns. -/
def extractedCard : BusinessCard :=
  { id := "", personalData := { (default : PersonalData) with fullName := "Jane Doe" },
    companyData := default, images := [], extractedText := "raw model output",
    observ := "", user := "", processedAt := 0, createdAt := 0, status := "",
    error := "", retryCount := 0, lastRetryAt := none }

/-- A successful extraction whose parsed JSON was `{}`: every structured
field is left at its zero value.  (`json.Unmarshal` of `{}` into the Go
structs succeeds and leaves every field empty.) -/
def extractedEmptyCard : BusinessCard :=
  { id := "", personalData := default, companyData := default, images := [],
    extractedText := "{}", observ := "", user := "", processedAt := 0,
    createdAt := 0, status := "", error := "", retryCount := 0,
    lastRetryAt := none }

def envAllOk : Env :=
  { uploadResult := fun _ => .ok "key0", saveResult := fun _ => none,
    getImageResult := fun _ => .ok [9, 9], getRecordOutcome := none,
    extractResult := fun _ => .ok extractedCard, time := fun n => 100 + n }

def envExtractFails : Env :=
  { envAllOk with extractResult := fun _ => .error "network error" }

def envDownloadFails : Env :=
  { envAllOk with getImageResult := fun _ => .error "s3 down" }

def envFinalSaveFails : Env :=
  { envAllOk with saveResult := fun n => if n = 2 then some "ddb down" else none }

def envRetryFinalSaveFails : Env :=
  { envAllOk with saveResult := fun n => if n = 1 then some "ddb down" else none }

def envUpload1Fails : Env :=
  { envAllOk with
    uploadResult := fun i => if i = 1 then .error "s3 write failed" else .ok "key0" }

def envExtractEmpty : Env :=
  { envAllOk with extractResult := fun _ => .ok extractedEmptyCard }

def sampleUpload : ImageUpload :=
  { fileName := "card.jpg", contentType := "image/jpeg", data := [9, 9] }

def sampleUpload2 : ImageUpload :=
  { fileName := "back.png", contentType := "image/png", data := [1] }

/-! Step equations for the recursive loops (provable by `rfl`, usable with
`rw`/`simp only` without conditional equation lemmas). -/

theorem uploadImages_nil (env : Env) (i : Nat) :
    uploadImages env [] i = .ok [] := rfl

theorem uploadImages_cons (env : Env) (u : ImageUpload)
    (rest : List ImageUpload) (i : Nat) :
    uploadImages env (u :: rest) i =
      match env.uploadResult i with
      | .error e => .error ("failed to upload image to S3: " ++ e)
      | .ok s3Key =>
        match uploadImages env rest (i + 1) with
        | .error e => .error e
        | .ok imgs =>
          .ok ({ fileName := u.fileName, contentType := u.contentType,
                 size := (u.data.length : Int), s3Key := s3Key, s3URL := "",
                 data := u.data, uploadedAt := env.time i } :: imgs) := rfl

theorem downloadImages_nil (env : Env) (i : Nat) :
    downloadImages env [] i = .ok [] := rfl

theorem downloadImages_cons (env : Env) (img : ImageData)
    (rest : List ImageData) (i : Nat) :
    downloadImages env (img :: rest) i =
      match env.getImageResult i with
      | .error e =>
        .error ("failed to download image from S3 for retry processing: " ++ e)
      | .ok bytes =>
        match downloadImages env rest (i + 1) with
        | .error e => .error e
        | .ok out =>
          .ok ({ fileName := img.fileName, contentType := img.contentType,
                 size := img.size, s3Key := img.s3Key, s3URL := "",
                 data := bytes, uploadedAt := img.uploadedAt } :: out) := rfl

theorem runRetries_nil (store : RecordStore) (id : String) :
    runRetries [] store id = store := rfl

theorem runRetries_cons (env : Env) (rest : List Env) (store : RecordStore)
    (id : String) :
    runRetries (env :: rest) store id =
      runRetries rest (retryFailedProcessing env store id).2 id := rfl

/-- Filtering by the raw `status` attribute commutes with decoding, provided
every decodable item's raw attribute agrees with its decoded record. -/
theorem filter_decode_comm (status : String) : ∀ items : List RawItem,
    (∀ it ∈ items, ∀ c, it.decode = some c → it.statusAttr = some c.status) →
    (items.filter (fun it => it.statusAttr = some status)).filterMap (·.decode) =
      (items.filterMap (·.decode)).filter (fun c => c.status = status) := by
  intro items
  induction items with
  | nil => intro _; rfl
  | cons it rest ih =>
    intro h
    have hrest := ih (fun x hx c hc => h x (List.mem_cons_of_mem _ hx) c hc)
    cases hd : it.decode with
    | none =>
      by_cases hst : it.statusAttr = some status
      · simp [List.filter_cons, List.filterMap_cons, hst, hd, hrest]
      · simp [List.filter_cons, List.filterMap_cons, hst, hd, hrest]
    | some c =>
      have hsa := h it (List.mem_cons_self _ _) c hd
      by_cases hcs : c.status = status
      · simp [List.filter_cons, List.filterMap_cons, hd, hsa, hcs, hrest]
      · simp [List.filter_cons, List.filterMap_cons, hd, hsa, hcs, hrest]

/-- C10: a stored item that fails to unmarshal is silently skipped; the scan
results contain exactly the well-formed records (for the by-status scan,
exactly the well-formed records with the requested status, given that
decodable items carry their decoded status as raw attribute); an error is
returned only when the underlying scan itself fails. -/
theorem listScans_skip_malformed (items : List RawItem) (status : String) :
    getAllBusinessCards none items = .ok (items.filterMap (·.decode)) ∧
    (∀ e, getAllBusinessCards (some e) items =
        .error ("failed to scan business cards: " ++ e)) ∧
    ((∀ it ∈ items, ∀ c, it.decode = some c → it.statusAttr = some c.status) →
      getBusinessCardsByStatus none items status =
        .ok ((items.filterMap (·.decode)).filter (fun c => c.status = status))) ∧
    (∀ e, getBusinessCardsByStatus (some e) items status =
        .error ("failed to scan business cards by status: " ++ e)) := by
  refine ⟨rfl, fun _ => rfl, ?_, fun _ => rfl⟩
  intro hcons
  unfold getBusinessCardsByStatus unmarshalItems scanByStatus
  rw [filter_decode_comm status items hcons]

/-- A malformed stored item: it still has a `status` attribute but does not
unmarshal into the record shape. -/
def itemBad : RawItem := ⟨some StatusFailed, none⟩

def itemGood : RawItem := ⟨some StatusFailed, some sampleFailedCard⟩

def itemDone : RawItem := ⟨some StatusCompleted, some sampleCompletedCard⟩

def sampleItems : List RawItem := [itemGood, itemBad, itemDone]

theorem listScans_skip_malformed_witness :
    getAllBusinessCards none sampleItems =
      .ok [sampleFailedCard, sampleCompletedCard] ∧
    getBusinessCardsByStatus none sampleItems StatusFailed =
      .ok [sampleFailedCard] := by
  have h := listScans_skip_malformed sampleItems StatusFailed
  have hcons : ∀ it ∈ sampleItems, ∀ c, it.decode = some c →
      it.statusAttr = some c.status := by
    intro it hit c hc
    simp only [sampleItems, List.mem_cons, List.not_mem_nil, or_false] at hit
    rcases hit with h1 | h1 | h1 <;> subst h1
    · cases hc
      rfl
    · cases hc
    · cases hc
      rfl
  refine ⟨?_, ?_⟩
  · have := h.1
    simpa [sampleItems, itemGood, itemBad, itemDone, unmarshalItems] using this
  · have := h.2.2.1 hcons
    rw [this]
    simp only [sampleItems, itemGood, itemBad, itemDone, List.filterMap_cons,
      List.filterMap_nil]
    have h1 : sampleFailedCard.status = StatusFailed := rfl
    have h2 : ¬sampleCompletedCard.status = StatusFailed := by decide
    simp [List.filter_cons, h1, h2]

/-- C3: with the record-store read reachable, `Retry` on a job whose stored
status is not `FAILED` returns the invalid-state error and performs no write
(the store is returned unchanged); `Retry` on an id with no stored record
returns the not-found error, again without writing. -/
theorem retry_invalid_state_and_not_found (env : Env) (store : RecordStore)
    (id : String) (hget : env.getRecordOutcome = none) :
    (∀ card, store id = some card → card.status ≠ StatusFailed →
      retryFailedProcessing env store id =
        (⟨none, some "business card is not in failed state"⟩, store)) ∧
    (store id = none →
      retryFailedProcessing env store id =
        (⟨none, some ("failed to get business card: " ++
            "business card not found")⟩, store)) := by
  constructor
  · intro card hcard hst
    simp only [retryFailedProcessing, getBusinessCard, hget, hcard]
    rw [if_pos hst]
  · intro hnone
    simp only [retryFailedProcessing, getBusinessCard, hget, hnone]

theorem retry_invalid_state_and_not_found_witness :
    retryFailedProcessing envAllOk storeCompleted "job1" =
      (⟨none, some "business card is not in failed state"⟩, storeCompleted) ∧
    retryFailedProcessing envAllOk storeCompleted "missing" =
      (⟨none, some ("failed to get business card: " ++
          "business card not found")⟩, storeCompleted) :=
  ⟨(retry_invalid_state_and_not_found envAllOk storeCompleted "job1" rfl).1
      sampleCompletedCard rfl (by decide),
   (retry_invalid_state_and_not_found envAllOk storeCompleted "missing" rfl).2 rfl⟩

/-- If the `i`-th upload is the first to fail, the whole upload loop returns
its wrapped error. -/
theorem uploadImages_error_at (env : Env) : ∀ (ups : List ImageUpload)
    (start i : Nat) (e : String), i < ups.length →
    (∀ k, k < i → exceptOk (env.uploadResult (start + k)) = true) →
    env.uploadResult (start + i) = .error e →
    uploadImages env ups start = .error ("failed to upload image to S3: " ++ e) := by
  intro ups
  induction ups with
  | nil =>
    intro start i e hi _ _
    simp at hi
  | cons u rest ih =>
    intro start i e hi hok herr
    cases i with
    | zero =>
      rw [Nat.add_zero] at herr
      simp only [uploadImages_cons, herr]
    | succ j =>
      have h0 : exceptOk (env.uploadResult (start + 0)) = true :=
        hok 0 (Nat.succ_pos j)
      rw [Nat.add_zero] at h0
      cases hu : env.uploadResult start with
      | error e0 =>
        rw [hu] at h0
        simp [exceptOk] at h0
      | ok key =>
        have hrec := ih (start + 1) j e (by simpa using hi)
          (fun k hk => by
            have hs := hok (k + 1) (Nat.succ_lt_succ hk)
            rwa [show start + (k + 1) = start + 1 + k by omega] at hs)
          (by rwa [show start + 1 + j = start + (j + 1) by omega])
        simp only [uploadImages_cons, hu, hrec]

/-- C7: when any single image upload fails, `Submit` aborts with the wrapped
storage-write error and the record store is returned untouched: no job
record (Pending or otherwise) is ever written. -/
theorem submit_upload_failure_no_record (env : Env) (store : RecordStore)
    (id : String) (ups : List ImageUpload) :
    (∀ e, uploadImages env ups 0 = .error e →
      processBusinessCard env store id ups = (⟨none, some e⟩, store)) ∧
    (∀ i e, i < ups.length →
      (∀ k, k < i → exceptOk (env.uploadResult k) = true) →
      env.uploadResult i = .error e →
      processBusinessCard env store id ups =
        (⟨none, some ("failed to upload image to S3: " ++ e)⟩, store)) := by
  have habort : ∀ e, uploadImages env ups 0 = .error e →
      processBusinessCard env store id ups = (⟨none, some e⟩, store) := by
    intro e h
    simp only [processBusinessCard, h]
  refine ⟨habort, ?_⟩
  intro i e hi hok herr
  exact habort _ (uploadImages_error_at env ups 0 i e hi
    (fun k hk => by simpa using hok k hk) (by simpa using herr))

theorem submit_upload_failure_no_record_witness :
    processBusinessCard envUpload1Fails emptyStore "id0"
        [sampleUpload, sampleUpload2] =
      (⟨none, some ("failed to upload image to S3: " ++ "s3 write failed")⟩,
        emptyStore) :=
  (submit_upload_failure_no_record envUpload1Fails emptyStore "id0"
      [sampleUpload, sampleUpload2]).2 1 "s3 write failed" (by decide)
    (by
      intro k hk
      have hk0 : k = 0 := by omega
      subst hk0
      rfl)
    rfl

/-- The record the submit path builds and persists when extraction fails:
status `FAILED`, the extractor's message, `retryCount = 1`, `lastRetryAt`
freshly sampled, `personalData` still at its zero value. -/
def failedSubmitCard (env : Env) (id : String) (ups : List ImageUpload)
    (imgs : List ImageData) (e : String) : BusinessCard :=
  { id := id, personalData := default, companyData := default, images := imgs,
    extractedText := "", observ := "", user := "", processedAt := 0,
    createdAt := env.time ups.length, status := StatusFailed, error := e,
    retryCount := 1, lastRetryAt := some (env.time (ups.length + 1)) }

/-- C6: when extraction fails on a submission (uploads and the three record
writes succeeding), `Submit` persists a record with status `FAILED`, the
failure message, `retryCount = 1` and a fresh `lastRetryAt`, returns that
record together with a non-nil error, and leaves `personalData` zero-valued
(see `failedSubmitCard`); every other key of the store is untouched. -/
theorem submit_extraction_failure (env : Env) (store : RecordStore)
    (id : String) (ups : List ImageUpload) (imgs : List ImageData) (e : String)
    (hup : uploadImages env ups 0 = .ok imgs)
    (hs0 : env.saveResult 0 = none) (hs1 : env.saveResult 1 = none)
    (hex : env.extractResult imgs = .error e)
    (hs2 : env.saveResult 2 = none) :
    (processBusinessCard env store id ups).1 =
      ⟨some (failedSubmitCard env id ups imgs e),
        some ("failed to process business card: " ++ e)⟩ ∧
    (processBusinessCard env store id ups).2 id =
      some (failedSubmitCard env id ups imgs e) ∧
    ∀ j, j ≠ id → (processBusinessCard env store id ups).2 j = store j := by
  refine ⟨?_, ?_, ?_⟩
  · simp only [processBusinessCard, hup, saveBusinessCard, hs0, hs1, hex, hs2]
    rfl
  · simp only [processBusinessCard, hup, saveBusinessCard, hs0, hs1, hex, hs2]
    simp [failedSubmitCard]
  · intro j hj
    simp only [processBusinessCard, hup, saveBusinessCard, hs0, hs1, hex, hs2]
    simp [hj]

theorem submit_extraction_failure_witness :
    (processBusinessCard envExtractFails emptyStore "id0" [sampleUpload]).1 =
      ⟨some (failedSubmitCard envExtractFails "id0" [sampleUpload]
          [{ fileName := "card.jpg", contentType := "image/jpeg", size := 2,
             s3Key := "key0", s3URL := "", data := [9, 9],
             uploadedAt := 100 }] "network error"),
        some ("failed to process business card: " ++ "network error")⟩ ∧
    (processBusinessCard envExtractFails emptyStore "id0" [sampleUpload]).2 "id0" =
      some (failedSubmitCard envExtractFails "id0" [sampleUpload]
          [{ fileName := "card.jpg", contentType := "image/jpeg", size := 2,
             s3Key := "key0", s3URL := "", data := [9, 9],
             uploadedAt := 100 }] "network error") := by
  have h := submit_extraction_failure envExtractFails emptyStore "id0"
    [sampleUpload]
    [{ fileName := "card.jpg", contentType := "image/jpeg", size := 2,
       s3Key := "key0", s3URL := "", data := [9, 9], uploadedAt := 100 }]
    "network error" rfl rfl rfl rfl rfl
  exact ⟨h.1, h.2.1⟩

/-- Counterexample to C2 as stated: when the final (outcome-recording) write
fails, the code returns `nil` for the record — `return nil, fmt.Errorf(...)`
— not the in-memory result alongside the error. -/
theorem final_write_failure_returns_nil :
    (processBusinessCard envFinalSaveFails emptyStore "id0" [sampleUpload]).1.err =
      some ("failed to save processed business card: " ++
        ("failed to save business card: " ++ "ddb down")) ∧
    (processBusinessCard envFinalSaveFails emptyStore "id0" [sampleUpload]).1.card =
      none := by
  constructor <;> rfl

/-- C2 amended: when the final record-store write (recording the Completed
or Failed outcome) fails, `Submit` and `Retry` propagate the persistence
error to the caller but return no job record (the Go code returns `nil`,
not the in-memory result). -/
theorem final_write_failure_propagates (env : Env) (store : RecordStore)
    (id : String) :
    (∀ ups imgs p e, uploadImages env ups 0 = .ok imgs →
      env.saveResult 0 = none → env.saveResult 1 = none →
      env.extractResult imgs = .ok p → env.saveResult 2 = some e →
      (processBusinessCard env store id ups).1 =
        ⟨none, some ("failed to save processed business card: " ++
          ("failed to save business card: " ++ e))⟩) ∧
    (∀ ups imgs xe e, uploadImages env ups 0 = .ok imgs →
      env.saveResult 0 = none → env.saveResult 1 = none →
      env.extractResult imgs = .error xe → env.saveResult 2 = some e →
      (processBusinessCard env store id ups).1 =
        ⟨none, some ("failed to save error state: " ++
          ("failed to save business card: " ++ e))⟩) ∧
    (∀ card gimgs p e, env.getRecordOutcome = none → store id = some card →
      card.status = StatusFailed → env.saveResult 0 = none →
      downloadImages env card.images 0 = .ok gimgs →
      env.extractResult gimgs = .ok p → env.saveResult 1 = some e →
      (retryFailedProcessing env store id).1 =
        ⟨none, some ("failed to save processed business card: " ++
          ("failed to save business card: " ++ e))⟩) ∧
    (∀ card gimgs xe e, env.getRecordOutcome = none → store id = some card →
      card.status = StatusFailed → env.saveResult 0 = none →
      downloadImages env card.images 0 = .ok gimgs →
      env.extractResult gimgs = .error xe → env.saveResult 1 = some e →
      (retryFailedProcessing env store id).1 =
        ⟨none, some ("failed to save error state: " ++
          ("failed to save business card: " ++ e))⟩) := by
  refine ⟨?_, ?_, ?_, ?_⟩
  · intro ups imgs p e hup hs0 hs1 hex hs2
    simp only [processBusinessCard, hup, saveBusinessCard, hs0, hs1, hex, hs2]
  · intro ups imgs xe e hup hs0 hs1 hex hs2
    simp only [processBusinessCard, hup, saveBusinessCard, hs0, hs1, hex, hs2]
  · intro card gimgs p e hget hcard hst hs0 hdl hex hs1
    simp only [retryFailedProcessing, getBusinessCard, hget, hcard]
    rw [if_neg (fun hh => hh hst)]
    simp only [saveBusinessCard, hs0, hdl, hex, hs1]
  · intro card gimgs xe e hget hcard hst hs0 hdl hex hs1
    simp only [retryFailedProcessing, getBusinessCard, hget, hcard]
    rw [if_neg (fun hh => hh hst)]
    simp only [saveBusinessCard, hs0, hdl, hex, hs1]

theorem final_write_failure_propagates_witness :
    (processBusinessCard envFinalSaveFails emptyStore "id0" [sampleUpload]).1 =
      ⟨none, some ("failed to save processed business card: " ++
        ("failed to save business card: " ++ "ddb down"))⟩ ∧
    (retryFailedProcessing envRetryFinalSaveFails storeFailed "job1").1 =
      ⟨none, some ("failed to save processed business card: " ++
        ("failed to save business card: " ++ "ddb down"))⟩ := by
  have h1 := (final_write_failure_propagates envFinalSaveFails emptyStore
    "id0").1 [sampleUpload]
    [{ fileName := "card.jpg", contentType := "image/jpeg", size := 2,
       s3Key := "key0", s3URL := "", data := [9, 9], uploadedAt := 100 }]
    extractedCard "ddb down" rfl rfl rfl rfl rfl
  have h2 := (final_write_failure_propagates envRetryFinalSaveFails storeFailed
    "job1").2.2.1 sampleFailedCard
    [{ fileName := "card.jpg", contentType := "image/jpeg", size := 2,
       s3Key := "key0", s3URL := "", data := [9, 9], uploadedAt := 100 }]
    extractedCard "ddb down" rfl rfl rfl rfl rfl rfl rfl
  exact ⟨h1, h2⟩

/-- Counterexample to C1 as stated: a blob-store read failure during `Retry`
aborts the retry, but the stored record has already been mutated — by then
the code has persisted status `RETRYING` with `retryCount` incremented and
`lastRetryAt` updated (the reads happen after the Retrying write, not
before). -/
theorem retry_read_failure_mutates_state :
    (retryFailedProcessing envDownloadFails storeFailed "job1").1 =
      ⟨none, some ("failed to download image from S3 for retry processing: " ++
        "s3 down")⟩ ∧
    (retryFailedProcessing envDownloadFails storeFailed "job1").2 "job1" ≠
      storeFailed "job1" ∧
    (retryFailedProcessing envDownloadFails storeFailed "job1").2 "job1" =
      some { sampleFailedCard with
        status := StatusRetrying, retryCount := 2,
        lastRetryAt := some 100 } := by
  refine ⟨rfl, ?_, rfl⟩
  decide

/-- C1 corrected: the read failure aborts the retry with the wrapped
storage-read error and no further write happens, but the `Retrying`
transition has already been persisted at that point: the stored job record
now has status `RETRYING`, `retryCount + 1`, and a fresh `lastRetryAt`. -/
theorem retry_read_failure_after_transition (env : Env) (store : RecordStore)
    (id : String) (card : BusinessCard) (e : String)
    (hget : env.getRecordOutcome = none) (hcard : store id = some card)
    (hid : card.id = id) (hst : card.status = StatusFailed)
    (hs0 : env.saveResult 0 = none)
    (hdl : downloadImages env card.images 0 = .error e) :
    (retryFailedProcessing env store id).1 = ⟨none, some e⟩ ∧
    (retryFailedProcessing env store id).2 id =
      some { card with
        status := StatusRetrying,
        retryCount := card.retryCount + 1,
        lastRetryAt := some (env.time 0) } ∧
    ∀ j, j ≠ id → (retryFailedProcessing env store id).2 j = store j := by
  refine ⟨?_, ?_, ?_⟩
  · simp only [retryFailedProcessing, getBusinessCard, hget, hcard]
    rw [if_neg (fun hh => hh hst)]
    simp only [saveBusinessCard, hs0, hdl]
  · simp only [retryFailedProcessing, getBusinessCard, hget, hcard]
    rw [if_neg (fun hh => hh hst)]
    simp only [saveBusinessCard, hs0, hdl]
    simp [hid]
  · intro j hj
    simp only [retryFailedProcessing, getBusinessCard, hget, hcard]
    rw [if_neg (fun hh => hh hst)]
    simp only [saveBusinessCard, hs0, hdl]
    simp [hid, hj]

theorem retry_read_failure_after_transition_witness :
    (retryFailedProcessing envDownloadFails storeFailed "job1").1 =
      ⟨none, some ("failed to download image from S3 for retry processing: " ++
        "s3 down")⟩ ∧
    (retryFailedProcessing envDownloadFails storeFailed "job1").2 "job1" =
      some { sampleFailedCard with
        status := StatusRetrying,
        retryCount := sampleFailedCard.retryCount + 1,
        lastRetryAt := some (envDownloadFails.time 0) } := by
  have h := retry_read_failure_after_transition envDownloadFails storeFailed
    "job1" sampleFailedCard ("failed to download image from S3 for retry processing: " ++ "s3 down")
    rfl rfl rfl rfl rfl rfl
  exact ⟨h.1, h.2.1⟩

/-- The record the submit path persists when extraction succeeds but the
parsed JSON was `{}`: status `COMPLETED`, empty error, and all structured
data still at its zero value. -/
def completedEmptyCard : BusinessCard :=
  { id := "id0", personalData := default, companyData := default,
    images := [{ fileName := "card.jpg", contentType := "image/jpeg", size := 2,
                 s3Key := "key0", s3URL := "", data := [9, 9],
                 uploadedAt := 100 }],
    extractedText := "{}", observ := "", user := "", processedAt := 102,
    createdAt := 101, status := StatusCompleted, error := "", retryCount := 0,
    lastRetryAt := none }

/-- Counterexample to C5 as stated: the code never checks that extraction
produced any data, so an extraction whose JSON parsed to `{}` (all fields at
their zero value, which `json.Unmarshal` accepts) yields a persisted
`COMPLETED` record whose `personalData` and `companyData` are both
default. -/
theorem completed_with_default_data :
    (processBusinessCard envExtractEmpty emptyStore "id0" [sampleUpload]).2 "id0" =
      some completedEmptyCard ∧
    completedEmptyCard.status = StatusCompleted ∧
    completedEmptyCard.error = "" ∧
    completedEmptyCard.personalData = default ∧
    completedEmptyCard.companyData = default := by
  refine ⟨rfl, rfl, rfl, rfl, rfl⟩

/-- C5 amended: every record `Submit` or `Retry` returns with status
`COMPLETED` comes with a nil error, has an empty `error` field, is the
record persisted by the final write, and carries exactly the personal data,
company data and raw text of the successful extraction — which may all be at
their zero values. -/
theorem completed_record_fields (env : Env) (store : RecordStore)
    (id : String) :
    (∀ ups c r st', processBusinessCard env store id ups = (⟨some c, r⟩, st') →
      c.status = StatusCompleted →
      r = none ∧ c.error = "" ∧ st' id = some c ∧
      ∃ imgs p, uploadImages env ups 0 = .ok imgs ∧
        env.extractResult imgs = .ok p ∧
        c.personalData = p.personalData ∧ c.companyData = p.companyData ∧
        c.extractedText = p.extractedText) ∧
    (∀ c r st', retryFailedProcessing env store id = (⟨some c, r⟩, st') →
      c.status = StatusCompleted →
      r = none ∧ c.error = "" ∧ st' c.id = some c ∧
      ∃ card gimgs p, getBusinessCard env.getRecordOutcome store id = .ok card ∧
        downloadImages env card.images 0 = .ok gimgs ∧
        env.extractResult gimgs = .ok p ∧
        c.personalData = p.personalData ∧ c.companyData = p.companyData ∧
        c.extractedText = p.extractedText) := by
  constructor
  · intro ups c r st' h hcs
    simp only [processBusinessCard] at h
    split at h
    · simp at h
    · rename_i imgs hup
      split at h
      · simp at h
      · rename_i store1 hsv1
        split at h
        · simp at h
        · rename_i store2 hsv2
          split at h
          · -- extraction failed: the returned record has status FAILED
            split at h
            · simp at h
            · simp only [Prod.mk.injEq, GoResult.mk.injEq, Option.some.injEq] at h
              obtain ⟨⟨hc, hr⟩, hstr⟩ := h
              rw [← hc] at hcs
              simp [StatusFailed, StatusCompleted] at hcs
          · rename_i p hex
            split at h
            · simp at h
            · rename_i store3 hsv3
              simp only [Prod.mk.injEq, GoResult.mk.injEq, Option.some.injEq] at h
              obtain ⟨⟨hc, hr⟩, hstr⟩ := h
              subst hc
              subst hr
              subst hstr
              -- recover the shape of the final store from the last save
              unfold saveBusinessCard at hsv3
              split at hsv3
              · cases hsv3
              · rename_i hs2
                injection hsv3 with hsv3
                subst hsv3
                refine ⟨rfl, rfl, by simp, imgs, p, hup, hex, rfl, rfl, rfl⟩
  · intro c r st' h hcs
    simp only [retryFailedProcessing] at h
    split at h
    · simp at h
    · rename_i card hcard
      split at h
      · simp at h
      · split at h
        · simp at h
        · rename_i store1 hsv1
          split at h
          · simp at h
          · rename_i gimgs hdl
            split at h
            · -- retry extraction failed: returned record has status FAILED
              split at h
              · simp at h
              · simp only [Prod.mk.injEq, GoResult.mk.injEq, Option.some.injEq] at h
                obtain ⟨⟨hc, hr⟩, hstr⟩ := h
                rw [← hc] at hcs
                simp [StatusFailed, StatusCompleted] at hcs
            · rename_i p hex
              split at h
              · simp at h
              · rename_i store2 hsv2
                simp only [Prod.mk.injEq, GoResult.mk.injEq, Option.some.injEq] at h
                obtain ⟨⟨hc, hr⟩, hstr⟩ := h
                subst hc
                subst hr
                subst hstr
                unfold saveBusinessCard at hsv2
                split at hsv2
                · cases hsv2
                · injection hsv2 with hsv2
                  subst hsv2
                  refine ⟨rfl, rfl, by simp, card, gimgs, p, hcard, hdl, hex,
                    rfl, rfl, rfl⟩

/-- The record the all-successful submit run persists. -/
def completedSampleCard : BusinessCard :=
  { id := "id0", personalData := extractedCard.personalData,
    companyData := extractedCard.companyData,
    images := [{ fileName := "card.jpg", contentType := "image/jpeg", size := 2,
                 s3Key := "key0", s3URL := "", data := [9, 9],
                 uploadedAt := 100 }],
    extractedText := "raw model output", observ := "", user := "",
    processedAt := 102, createdAt := 101, status := StatusCompleted,
    error := "", retryCount := 0, lastRetryAt := none }

theorem completed_record_fields_witness :
    completedSampleCard.status = StatusCompleted ∧
    completedSampleCard.error = "" ∧
    (processBusinessCard envAllOk emptyStore "id0" [sampleUpload]).2 "id0" =
      some completedSampleCard ∧
    completedSampleCard.personalData = extractedCard.personalData := by
  have h := (completed_record_fields envAllOk emptyStore "id0").1 [sampleUpload]
    completedSampleCard none
    (processBusinessCard envAllOk emptyStore "id0" [sampleUpload]).2
    rfl rfl
  obtain ⟨-, he, hst, imgs, p, -, hex, hpd, -, -⟩ := h
  have hp : Except.ok (ε := String) extractedCard = .ok p := hex
  injection hp with hpe
  exact ⟨rfl, he, hst, by rw [hpd, ← hpe]⟩

/-- The fields of a job record that `Retry` never touches: identity, images
(file names, content types, sizes, storage keys, order), creation time, and
the pass-through `observation`/`user` fields. -/
def sameFrame (c c0 : BusinessCard) : Prop :=
  c.id = c0.id ∧ c.images = c0.images ∧ c.createdAt = c0.createdAt ∧
  c.observ = c0.observ ∧ c.user = c0.user

theorem sameFrame_refl (c : BusinessCard) : sameFrame c c :=
  ⟨rfl, rfl, rfl, rfl, rfl⟩

theorem sameFrame_trans {c2 c1 c0 : BusinessCard} (h2 : sameFrame c2 c1)
    (h1 : sameFrame c1 c0) : sameFrame c2 c0 :=
  ⟨h2.1.trans h1.1, h2.2.1.trans h1.2.1, h2.2.2.1.trans h1.2.2.1,
   h2.2.2.2.1.trans h1.2.2.2.1, h2.2.2.2.2.trans h1.2.2.2.2⟩

/-- The loaded record after the `Retrying` transition (part_002 lines
202-206). -/
def retryingCard (env : Env) (card : BusinessCard) : BusinessCard :=
  { card with
    status := StatusRetrying, retryCount := card.retryCount + 1,
    lastRetryAt := some (env.time 0) }

/-- The record persisted when the retried extraction fails (lines 266-268). -/
def failedRetryCard (env : Env) (card : BusinessCard) (e : String) :
    BusinessCard :=
  { retryingCard env card with status := StatusFailed, error := e }

/-- The record persisted when the retried extraction succeeds (lines
289-295). -/
def completedRetryCard (env : Env) (card : BusinessCard) (p : BusinessCard) :
    BusinessCard :=
  { retryingCard env card with
    personalData := p.personalData, companyData := p.companyData,
    extractedText := p.extractedText, processedAt := env.time 1,
    status := StatusCompleted, error := "" }

/-- Exhaustive outcome analysis of `RetryFailedProcessing` on a stored
record: either no write happened (store returned as-is), or the store at the
job id now holds the `Retrying`, retried-`Failed`, or retried-`Completed`
version of the loaded record; every other key is untouched. -/
theorem retryFailedProcessing_cases (env : Env) (store : RecordStore)
    (id : String) (card : BusinessCard) (hcard : store id = some card)
    (hid : card.id = id) :
    (((retryFailedProcessing env store id).1.card = none ∧
       (retryFailedProcessing env store id).2 = store) ∨
     ((retryFailedProcessing env store id).1.card = none ∧
       (retryFailedProcessing env store id).2 id =
         some (retryingCard env card)) ∨
     (∃ e, (retryFailedProcessing env store id).1.card =
         some (failedRetryCard env card e) ∧
       (retryFailedProcessing env store id).2 id =
         some (failedRetryCard env card e)) ∨
     (∃ gimgs p, downloadImages env card.images 0 = .ok gimgs ∧
       env.extractResult gimgs = .ok p ∧
       (retryFailedProcessing env store id).1.card =
         some (completedRetryCard env card p) ∧
       (retryFailedProcessing env store id).2 id =
         some (completedRetryCard env card p))) ∧
    (∀ j, j ≠ id → (retryFailedProcessing env store id).2 j = store j) := by
  cases hget : env.getRecordOutcome with
  | some e =>
    have h2 : (retryFailedProcessing env store id).2 = store := by
      simp only [retryFailedProcessing, getBusinessCard, hget]
    have h1 : (retryFailedProcessing env store id).1.card = none := by
      simp only [retryFailedProcessing, getBusinessCard, hget]
    exact ⟨Or.inl ⟨h1, h2⟩, fun j _ => by rw [h2]⟩
  | none =>
    by_cases hst : card.status = StatusFailed
    · cases hs0 : env.saveResult 0 with
      | some e =>
        have h2 : (retryFailedProcessing env store id).2 = store := by
          simp only [retryFailedProcessing, getBusinessCard, hget, hcard]
          rw [if_neg (fun hh => hh hst)]
          simp only [saveBusinessCard, hs0]
        have h1 : (retryFailedProcessing env store id).1.card = none := by
          simp only [retryFailedProcessing, getBusinessCard, hget, hcard]
          rw [if_neg (fun hh => hh hst)]
          simp only [saveBusinessCard, hs0]
        exact ⟨Or.inl ⟨h1, h2⟩, fun j _ => by rw [h2]⟩
      | none =>
        cases hdl : downloadImages env card.images 0 with
        | error e =>
          have h1 : (retryFailedProcessing env store id).1.card = none := by
            simp only [retryFailedProcessing, getBusinessCard, hget, hcard]
            rw [if_neg (fun hh => hh hst)]
            simp only [saveBusinessCard, hs0, hdl]
          have h2 : (retryFailedProcessing env store id).2 id =
              some (retryingCard env card) := by
            simp only [retryFailedProcessing, getBusinessCard, hget, hcard]
            rw [if_neg (fun hh => hh hst)]
            simp only [saveBusinessCard, hs0, hdl]
            simp [retryingCard, hid]
          have h3 : ∀ j, j ≠ id →
              (retryFailedProcessing env store id).2 j = store j := by
            intro j hj
            simp only [retryFailedProcessing, getBusinessCard, hget, hcard]
            rw [if_neg (fun hh => hh hst)]
            simp only [saveBusinessCard, hs0, hdl]
            simp [retryingCard, hid, hj]
          exact ⟨Or.inr (Or.inl ⟨h1, h2⟩), h3⟩
        | ok gimgs =>
          cases hex : env.extractResult gimgs with
          | error e =>
            cases hs1 : env.saveResult 1 with
            | some se =>
              have h1 : (retryFailedProcessing env store id).1.card = none := by
                simp only [retryFailedProcessing, getBusinessCard, hget, hcard]
                rw [if_neg (fun hh => hh hst)]
                simp only [saveBusinessCard, hs0, hdl, hex, hs1]
              have h2 : (retryFailedProcessing env store id).2 id =
                  some (retryingCard env card) := by
                simp only [retryFailedProcessing, getBusinessCard, hget, hcard]
                rw [if_neg (fun hh => hh hst)]
                simp only [saveBusinessCard, hs0, hdl, hex, hs1]
                simp [retryingCard, hid]
              have h3 : ∀ j, j ≠ id →
                  (retryFailedProcessing env store id).2 j = store j := by
                intro j hj
                simp only [retryFailedProcessing, getBusinessCard, hget, hcard]
                rw [if_neg (fun hh => hh hst)]
                simp only [saveBusinessCard, hs0, hdl, hex, hs1]
                simp [retryingCard, hid, hj]
              exact ⟨Or.inr (Or.inl ⟨h1, h2⟩), h3⟩
            | none =>
              have h1 : (retryFailedProcessing env store id).1.card =
                  some (failedRetryCard env card e) := by
                simp only [retryFailedProcessing, getBusinessCard, hget, hcard]
                rw [if_neg (fun hh => hh hst)]
                simp only [saveBusinessCard, hs0, hdl, hex, hs1]
                simp [failedRetryCard, retryingCard]
              have h2 : (retryFailedProcessing env store id).2 id =
                  some (failedRetryCard env card e) := by
                simp only [retryFailedProcessing, getBusinessCard, hget, hcard]
                rw [if_neg (fun hh => hh hst)]
                simp only [saveBusinessCard, hs0, hdl, hex, hs1]
                simp [failedRetryCard, retryingCard, hid]
              have h3 : ∀ j, j ≠ id →
                  (retryFailedProcessing env store id).2 j = store j := by
                intro j hj
                simp only [retryFailedProcessing, getBusinessCard, hget, hcard]
                rw [if_neg (fun hh => hh hst)]
                simp only [saveBusinessCard, hs0, hdl, hex, hs1]
                simp [failedRetryCard, retryingCard, hid, hj]
              exact ⟨Or.inr (Or.inr (Or.inl ⟨e, h1, h2⟩)), h3⟩
          | ok p =>
            cases hs1 : env.saveResult 1 with
            | some se =>
              have h1 : (retryFailedProcessing env store id).1.card = none := by
                simp only [retryFailedProcessing, getBusinessCard, hget, hcard]
                rw [if_neg (fun hh => hh hst)]
                simp only [saveBusinessCard, hs0, hdl, hex, hs1]
              have h2 : (retryFailedProcessing env store id).2 id =
                  some (retryingCard env card) := by
                simp only [retryFailedProcessing, getBusinessCard, hget, hcard]
                rw [if_neg (fun hh => hh hst)]
                simp only [saveBusinessCard, hs0, hdl, hex, hs1]
                simp [retryingCard, hid]
              have h3 : ∀ j, j ≠ id →
                  (retryFailedProcessing env store id).2 j = store j := by
                intro j hj
                simp only [retryFailedProcessing, getBusinessCard, hget, hcard]
                rw [if_neg (fun hh => hh hst)]
                simp only [saveBusinessCard, hs0, hdl, hex, hs1]
                simp [retryingCard, hid, hj]
              exact ⟨Or.inr (Or.inl ⟨h1, h2⟩), h3⟩
            | none =>
              have h1 : (retryFailedProcessing env store id).1.card =
                  some (completedRetryCard env card p) := by
                simp only [retryFailedProcessing, getBusinessCard, hget, hcard]
                rw [if_neg (fun hh => hh hst)]
                simp only [saveBusinessCard, hs0, hdl, hex, hs1]
                simp [completedRetryCard, retryingCard]
              have h2 : (retryFailedProcessing env store id).2 id =
                  some (completedRetryCard env card p) := by
                simp only [retryFailedProcessing, getBusinessCard, hget, hcard]
                rw [if_neg (fun hh => hh hst)]
                simp only [saveBusinessCard, hs0, hdl, hex, hs1]
                simp [completedRetryCard, retryingCard, hid]
              have h3 : ∀ j, j ≠ id →
                  (retryFailedProcessing env store id).2 j = store j := by
                intro j hj
                simp only [retryFailedProcessing, getBusinessCard, hget, hcard]
                rw [if_neg (fun hh => hh hst)]
                simp only [saveBusinessCard, hs0, hdl, hex, hs1]
                simp [completedRetryCard, retryingCard, hid, hj]
              exact ⟨Or.inr (Or.inr (Or.inr ⟨gimgs, p, rfl, hex, h1, h2⟩)), h3⟩
    · have h2 : (retryFailedProcessing env store id).2 = store := by
        simp only [retryFailedProcessing, getBusinessCard, hget, hcard]
        rw [if_pos hst]
      have h1 : (retryFailedProcessing env store id).1.card = none := by
        simp only [retryFailedProcessing, getBusinessCard, hget, hcard]
        rw [if_pos hst]
      exact ⟨Or.inl ⟨h1, h2⟩, fun j _ => by rw [h2]⟩

/-- Any sequence of `Retry` calls keeps a record at the job id and preserves
its frame fields. -/
theorem runRetries_frame (id : String) : ∀ (envs : List Env)
    (store : RecordStore) (card : BusinessCard),
    store id = some card → card.id = id →
    ∃ c, runRetries envs store id id = some c ∧ sameFrame c card := by
  intro envs
  induction envs with
  | nil =>
    intro store card hcard _
    exact ⟨card, hcard, sameFrame_refl card⟩
  | cons env rest ih =>
    intro store card hcard hid
    obtain ⟨hcases, -⟩ :=
      retryFailedProcessing_cases env store id card hcard hid
    rw [runRetries_cons]
    rcases hcases with ⟨-, h2⟩ | ⟨-, h2⟩ | ⟨e, -, h2⟩ | ⟨gimgs, p, -, -, -, h2⟩
    · rw [h2]
      exact ih store card hcard hid
    · obtain ⟨c2, hc2, hf⟩ := ih _ (retryingCard env card) h2 hid
      exact ⟨c2, hc2, sameFrame_trans hf ⟨rfl, rfl, rfl, rfl, rfl⟩⟩
    · obtain ⟨c2, hc2, hf⟩ := ih _ (failedRetryCard env card e) h2 hid
      exact ⟨c2, hc2, sameFrame_trans hf ⟨rfl, rfl, rfl, rfl, rfl⟩⟩
    · obtain ⟨c2, hc2, hf⟩ := ih _ (completedRetryCard env card p) h2 hid
      exact ⟨c2, hc2, sameFrame_trans hf ⟨rfl, rfl, rfl, rfl, rfl⟩⟩

/-- C8: `Retry` never touches the `images` list of the job record — file
names, content types, sizes, storage keys, length and order are identical
before and after each call — nor `id`, `createdAt`, `observation` or `user`;
only status, retryCount, lastRetryAt, error, processedAt and the
extracted-data fields change.  This holds for the returned record, for the
persisted record, across any number of retries, and no other key of the
store is written. -/
theorem retry_preserves_images (env : Env) (store : RecordStore) (id : String)
    (card : BusinessCard) (hcard : store id = some card) (hid : card.id = id) :
    (∀ c, (retryFailedProcessing env store id).1.card = some c →
      c.images = card.images ∧ sameFrame c card) ∧
    (∃ c, (retryFailedProcessing env store id).2 id = some c ∧
      c.images = card.images ∧ sameFrame c card) ∧
    (∀ j, j ≠ id → (retryFailedProcessing env store id).2 j = store j) ∧
    (∀ envs, ∃ c, runRetries envs store id id = some c ∧
      c.images = card.images ∧ sameFrame c card) := by
  obtain ⟨hcases, hother⟩ :=
    retryFailedProcessing_cases env store id card hcard hid
  refine ⟨?_, ?_, hother, ?_⟩
  · intro c hc
    rcases hcases with ⟨h1, -⟩ | ⟨h1, -⟩ | ⟨e, h1, -⟩ | ⟨g, p, -, -, h1, -⟩
    · rw [h1] at hc
      cases hc
    · rw [h1] at hc
      cases hc
    · rw [h1] at hc
      injection hc with hc
      subst hc
      exact ⟨rfl, rfl, rfl, rfl, rfl, rfl⟩
    · rw [h1] at hc
      injection hc with hc
      subst hc
      exact ⟨rfl, rfl, rfl, rfl, rfl, rfl⟩
  · rcases hcases with ⟨-, h2⟩ | ⟨-, h2⟩ | ⟨e, -, h2⟩ | ⟨g, p, -, -, -, h2⟩
    · refine ⟨card, ?_, rfl, sameFrame_refl card⟩
      rw [h2]
      exact hcard
    · exact ⟨retryingCard env card, h2, rfl, rfl, rfl, rfl, rfl, rfl⟩
    · exact ⟨failedRetryCard env card e, h2, rfl, rfl, rfl, rfl, rfl, rfl⟩
    · exact ⟨completedRetryCard env card p, h2, rfl, rfl, rfl, rfl, rfl, rfl⟩
  · intro envs
    obtain ⟨c, hc, hf⟩ := runRetries_frame id envs store card hcard hid
    exact ⟨c, hc, hf.2.1, hf⟩

theorem retry_preserves_images_witness :
    ∃ c, (retryFailedProcessing envAllOk storeFailed "job1").2 "job1" =
        some c ∧
      c.images = sampleFailedCard.images ∧ sameFrame c sampleFailedCard :=
  (retry_preserves_images envAllOk storeFailed "job1" sampleFailedCard
    rfl rfl).2.1

/-- If every S3 download succeeds, the download loop succeeds. -/
theorem downloadImages_ok (env : Env)
    (hgi : ∀ k, exceptOk (env.getImageResult k) = true) :
    ∀ (imgs : List ImageData) (i : Nat),
    ∃ out, downloadImages env imgs i = .ok out := by
  intro imgs
  induction imgs with
  | nil =>
    intro i
    exact ⟨[], rfl⟩
  | cons img rest ih =>
    intro i
    cases hg : env.getImageResult i with
    | error e =>
      have hk := hgi i
      rw [hg] at hk
      simp [exceptOk] at hk
    | ok bytes =>
      obtain ⟨out, hout⟩ := ih (i + 1)
      refine ⟨{ fileName := img.fileName, contentType := img.contentType,
                size := img.size, s3Key := img.s3Key, s3URL := "",
                data := bytes, uploadedAt := img.uploadedAt } :: out, ?_⟩
      simp only [downloadImages_cons, hg, hout]

/-- A retry against fully-successful backends persists a record with
`retryCount` incremented by exactly one — in the `Retrying` transition, not
again on that attempt's failure — whose status is `FAILED` whenever the
extraction failed. -/
theorem retry_goodEnv_step (env : Env) (store : RecordStore) (id : String)
    (card : BusinessCard)
    (hget : env.getRecordOutcome = none)
    (hsv : ∀ n, env.saveResult n = none)
    (hgi : ∀ k, exceptOk (env.getImageResult k) = true)
    (hcard : store id = some card) (hid : card.id = id)
    (hst : card.status = StatusFailed) :
    ∃ c, (retryFailedProcessing env store id).2 id = some c ∧
      c.id = id ∧ c.images = card.images ∧
      c.retryCount = card.retryCount + 1 ∧
      ((∀ imgs, exceptOk (env.extractResult imgs) = false) →
        c.status = StatusFailed) := by
  obtain ⟨gimgs, hdl⟩ := downloadImages_ok env hgi card.images 0
  cases hex : env.extractResult gimgs with
  | error e =>
    refine ⟨failedRetryCard env card e, ?_, hid, rfl, rfl, fun _ => rfl⟩
    simp only [retryFailedProcessing, getBusinessCard, hget, hcard]
    rw [if_neg (fun hh => hh hst)]
    simp only [saveBusinessCard, hsv 0, hdl, hex, hsv 1]
    simp [failedRetryCard, retryingCard, hid]
  | ok p =>
    refine ⟨completedRetryCard env card p, ?_, hid, rfl, rfl, ?_⟩
    · simp only [retryFailedProcessing, getBusinessCard, hget, hcard]
      rw [if_neg (fun hh => hh hst)]
      simp only [saveBusinessCard, hsv 0, hdl, hex, hsv 1]
      simp [completedRetryCard, retryingCard, hid]
    · intro hfail
      have hk := hfail gimgs
      rw [hex] at hk
      simp [exceptOk] at hk

/-- Accepted retries against fully-successful backends, each attempt but
possibly the last failing extraction: the stored `retryCount` grows by
exactly the number of calls. -/
theorem runRetries_count (id : String) : ∀ (envs : List Env)
    (store : RecordStore) (card : BusinessCard),
    store id = some card → card.id = id → card.status = StatusFailed →
    (∀ env' ∈ envs, env'.getRecordOutcome = none ∧
      (∀ n, env'.saveResult n = none) ∧
      (∀ k, exceptOk (env'.getImageResult k) = true)) →
    (∀ env' ∈ envs.dropLast, ∀ imgs,
      exceptOk (env'.extractResult imgs) = false) →
    ∃ c, runRetries envs store id id = some c ∧
      c.retryCount = card.retryCount + envs.length := by
  intro envs
  induction envs with
  | nil =>
    intro store card hcard _ _ _ _
    exact ⟨card, hcard, by simp⟩
  | cons env rest ih =>
    intro store card hcard hid hst hgood hfail
    obtain ⟨hget, hsv, hgi⟩ := hgood env (List.mem_cons_self _ _)
    obtain ⟨c1, hc1, hid1, -, hrc1, hst1⟩ :=
      retry_goodEnv_step env store id card hget hsv hgi hcard hid hst
    rw [runRetries_cons]
    cases rest with
    | nil =>
      refine ⟨c1, ?_, ?_⟩
      · rw [runRetries_nil]
        exact hc1
      · rw [hrc1]
        simp
    | cons env2 rest2 =>
      have hfail1 : ∀ imgs, exceptOk (env.extractResult imgs) = false := by
        intro imgs
        apply hfail env _ imgs
        rw [List.dropLast_cons_of_ne_nil (by simp)]
        exact List.mem_cons_self _ _
      have hfail2 : ∀ e ∈ (env2 :: rest2).dropLast, ∀ imgs,
          exceptOk (e.extractResult imgs) = false := by
        intro e he imgs
        apply hfail e _ imgs
        rw [List.dropLast_cons_of_ne_nil (by simp)]
        exact List.mem_cons_of_mem _ he
      obtain ⟨c2, hc2, hrc2⟩ := ih _ c1 hc1 hid1 (hst1 hfail1)
        (fun e he => hgood e (List.mem_cons_of_mem _ he)) hfail2
      refine ⟨c2, hc2, ?_⟩
      rw [hrc2, hrc1]
      simp only [List.length_cons]
      push_cast
      ring

/-- A retry on an id with no stored record writes nothing. -/
theorem retry_store_missing (env : Env) (store : RecordStore) (id : String)
    (hsid : store id = none) :
    (retryFailedProcessing env store id).2 = store := by
  cases hget : env.getRecordOutcome with
  | some e => simp only [retryFailedProcessing, getBusinessCard, hget]
  | none => simp only [retryFailedProcessing, getBusinessCard, hget, hsid]

/-- `ProcessBusinessCard` only ever writes the key of the job it creates. -/
theorem processBusinessCard_other_keys (env : Env) (store : RecordStore)
    (id : String) (ups : List ImageUpload) :
    ∀ j, j ≠ id → (processBusinessCard env store id ups).2 j = store j := by
  intro j hj
  cases hup : uploadImages env ups 0 with
  | error e => simp only [processBusinessCard, hup]
  | ok imgs =>
    cases hs0 : env.saveResult 0 with
    | some e => simp only [processBusinessCard, hup, saveBusinessCard, hs0]
    | none =>
      cases hs1 : env.saveResult 1 with
      | some e =>
        simp only [processBusinessCard, hup, saveBusinessCard, hs0, hs1]
        simp [hj]
      | none =>
        cases hex : env.extractResult imgs with
        | error e =>
          cases hs2 : env.saveResult 2 with
          | some se =>
            simp only [processBusinessCard, hup, saveBusinessCard, hs0, hs1,
              hex, hs2]
            simp [hj]
          | none =>
            simp only [processBusinessCard, hup, saveBusinessCard, hs0, hs1,
              hex, hs2]
            simp [hj]
        | ok p =>
          cases hs2 : env.saveResult 2 with
          | some se =>
            simp only [processBusinessCard, hup, saveBusinessCard, hs0, hs1,
              hex, hs2]
            simp [hj]
          | none =>
            simp only [processBusinessCard, hup, saveBusinessCard, hs0, hs1,
              hex, hs2]
            simp [hj]

/-- C4: `retryCount` accounting.  (a) a successful submission returns a
record with `retryCount = 0`; (b) a submission whose extraction failed
returns `retryCount = 1`; (c) an accepted `Retry` returns the loaded
record's count plus exactly one (the increment happens in the `Retrying`
transition, not again on that attempt's failure); (d) `Retry` never
decreases any stored `retryCount` (on a store whose records carry their own
key); (e) neither does `Submit` under a fresh id; (f) starting from the
first natural failure (`retryCount = 1` by (b)), `k - 1` further accepted
retries against fully-successful backends leave `retryCount = k` total
attempts, regardless of whether the last attempt succeeded. -/
theorem retryCount_accounting (env : Env) (store : RecordStore)
    (id : String) :
    (∀ ups c st',
      processBusinessCard env store id ups = (⟨some c, none⟩, st') →
      c.retryCount = 0) ∧
    (∀ ups c r st',
      processBusinessCard env store id ups = (⟨some c, some r⟩, st') →
      c.retryCount = 1) ∧
    (∀ card, store id = some card → card.id = id →
      ∀ c, (retryFailedProcessing env store id).1.card = some c →
        c.retryCount = card.retryCount + 1) ∧
    ((∀ j c, store j = some c → c.id = j) →
      ∀ j c0 c1, store j = some c0 →
        (retryFailedProcessing env store id).2 j = some c1 →
        c0.retryCount ≤ c1.retryCount) ∧
    (store id = none →
      ∀ ups j c0 c1, store j = some c0 →
        (processBusinessCard env store id ups).2 j = some c1 →
        c0.retryCount ≤ c1.retryCount) ∧
    (∀ envs card, store id = some card → card.id = id →
      card.status = StatusFailed →
      (∀ env' ∈ envs, env'.getRecordOutcome = none ∧
        (∀ n, env'.saveResult n = none) ∧
        (∀ k, exceptOk (env'.getImageResult k) = true)) →
      (∀ env' ∈ envs.dropLast, ∀ imgs,
        exceptOk (env'.extractResult imgs) = false) →
      ∃ c, runRetries envs store id id = some c ∧
        c.retryCount = card.retryCount + envs.length) := by
  refine ⟨?_, ?_, ?_, ?_, ?_, ?_⟩
  · -- (a) success path: the final record still carries retryCount = 0
    intro ups c st' h
    simp only [processBusinessCard] at h
    split at h
    · simp at h
    · rename_i imgs hup
      split at h
      · simp at h
      · rename_i store1 hsv1
        split at h
        · simp at h
        · rename_i store2 hsv2
          split at h
          · split at h
            · simp at h
            · simp at h
          · split at h
            · simp at h
            · simp only [Prod.mk.injEq, GoResult.mk.injEq,
                Option.some.injEq] at h
              obtain ⟨⟨hc, -⟩, -⟩ := h
              subst hc
              rfl
  · -- (b) extraction-failure path: the returned record carries 1
    intro ups c r st' h
    simp only [processBusinessCard] at h
    split at h
    · simp at h
    · rename_i imgs hup
      split at h
      · simp at h
      · rename_i store1 hsv1
        split at h
        · simp at h
        · rename_i store2 hsv2
          split at h
          · split at h
            · simp at h
            · simp only [Prod.mk.injEq, GoResult.mk.injEq,
                Option.some.injEq] at h
              obtain ⟨⟨hc, -⟩, -⟩ := h
              subst hc
              rfl
          · split at h
            · simp at h
            · simp at h
  · -- (c) accepted retry: returned count is loaded count plus one
    intro card hcard hid c hc
    obtain ⟨hcases, -⟩ :=
      retryFailedProcessing_cases env store id card hcard hid
    rcases hcases with ⟨h1, -⟩ | ⟨h1, -⟩ | ⟨e, h1, -⟩ | ⟨g, p, -, -, h1, -⟩
    · rw [h1] at hc
      cases hc
    · rw [h1] at hc
      cases hc
    · rw [h1] at hc
      injection hc with hc
      subst hc
      rfl
    · rw [h1] at hc
      injection hc with hc
      subst hc
      rfl
  · -- (d) retry monotonicity
    intro hkeys j c0 c1 h0 h1
    by_cases hj : j = id
    · subst hj
      obtain ⟨hcases, -⟩ :=
        retryFailedProcessing_cases env store j c0 h0 (hkeys j c0 h0)
      rcases hcases with ⟨-, h2⟩ | ⟨-, h2⟩ | ⟨e, -, h2⟩ | ⟨g, p, -, -, -, h2⟩
      · rw [h2, h0] at h1
        injection h1 with h1
        subst h1
        exact le_refl _
      · rw [h2] at h1
        injection h1 with h1
        subst h1
        simp [retryingCard]
      · rw [h2] at h1
        injection h1 with h1
        subst h1
        simp [failedRetryCard, retryingCard]
      · rw [h2] at h1
        injection h1 with h1
        subst h1
        simp [completedRetryCard, retryingCard]
    · cases hsid : store id with
      | none =>
        rw [retry_store_missing env store id hsid, h0] at h1
        injection h1 with h1
        subst h1
        exact le_refl _
      | some card =>
        obtain ⟨-, hother⟩ :=
          retryFailedProcessing_cases env store id card hsid
            (hkeys id card hsid)
        rw [hother j hj, h0] at h1
        injection h1 with h1
        subst h1
        exact le_refl _
  · -- (e) submit monotonicity under a fresh id
    intro hfresh ups j c0 c1 h0 h1
    by_cases hj : j = id
    · subst hj
      rw [hfresh] at h0
      cases h0
    · rw [processBusinessCard_other_keys env store id ups j hj, h0] at h1
      injection h1 with h1
      subst h1
      exact le_refl _
  · -- (f) trace accounting
    intro envs card hcard hid hst hgood hfail
    exact runRetries_count id envs store card hcard hid hst hgood hfail

theorem retryCount_accounting_witness :
    completedSampleCard.retryCount = 0 ∧
    (∃ c, runRetries [envExtractFails, envAllOk] storeFailed "job1" "job1" =
        some c ∧
      c.retryCount = sampleFailedCard.retryCount + 2) := by
  constructor
  · exact (retryCount_accounting envAllOk emptyStore "id0").1 [sampleUpload]
      completedSampleCard
      (processBusinessCard envAllOk emptyStore "id0" [sampleUpload]).2 rfl
  · have h := (retryCount_accounting envAllOk storeFailed "job1").2.2.2.2.2
      [envExtractFails, envAllOk] sampleFailedCard rfl rfl rfl
      (by
        intro e he
        simp only [List.mem_cons, List.not_mem_nil, or_false] at he
        rcases he with h1 | h1 <;> subst h1
        · exact ⟨rfl, fun _ => rfl, fun _ => rfl⟩
        · exact ⟨rfl, fun _ => rfl, fun _ => rfl⟩)
      (by
        intro e he imgs
        have hdrop : ([envExtractFails, envAllOk] : List Env).dropLast =
            [envExtractFails] := rfl
        rw [hdrop] at he
        simp only [List.mem_cons, List.not_mem_nil, or_false] at he
        subst he
        rfl)
    simpa using h

end BCR
